import Mathlib

/-!
Verification of the course-analysis dashboard (`mycode.py`).

The script's analysis core is embedded shallowly:
* a pandas cell is a `Cell` (string, float, or NaN; floats as `ℚ`),
* a dataframe is a column-major `Frame` (pandas is column-oriented),
* `process_dataframe`, `get_grade_distribution`, `common_ids` and the
  detailed-comparison table (`comparison_df`) are translated statement by
  statement from the source.
-/

/-- A pandas cell: a string, a numeric (float modelled as `ℚ`), or NaN. -/
inductive Cell where
  | str : String → Cell
  | num : ℚ → Cell
  | na : Cell
deriving DecidableEq, Repr

/-- Python `str(cell)` as used by `.astype(str)`: strings unchanged, NaN
prints as `"nan"`. -/
def cellToStr : Cell → String
  | .str s => s
  | .num q => toString q
  | .na => "nan"

/-- Python `str.strip()`: drop leading and trailing whitespace. -/
def pyStrip (s : String) : String :=
  String.mk (((s.toList.dropWhile Char.isWhitespace).reverse.dropWhile
    Char.isWhitespace).reverse)

/-- Does the first list start with the second? -/
def listStartsWith : List Char → List Char → Bool
  | _, [] => true
  | [], _ :: _ => false
  | c :: cs, d :: ds => c = d && listStartsWith cs ds

/-- Python `s.startswith(p)`. -/
def pyStartsWith (s p : String) : Bool :=
  listStartsWith s.toList p.toList

/-- Numeric value of a digit string, as `float(...)` of the match of `\d+`. -/
def digitsToNat (cs : List Char) : Nat :=
  cs.foldl (fun n c => 10 * n + (c.toNat - '0'.toNat)) 0

/-- `re.search('(\d+)', s)` on a char list: the first maximal run of ASCII
digits, scanning left to right (regex search is not anchored). -/
def firstDigitRun : List Char → Option (List Char)
  | [] => none
  | c :: rest =>
    if c.isDigit then some ((c :: rest).takeWhile Char.isDigit)
    else firstDigitRun rest

/-- `final_col.astype(str).str.extract('(\d+)').astype(float)` on one cell:
the numeric value of the first digit run, NaN (`none`) when no digit. -/
def extractDigits (s : String) : Option Nat :=
  (firstDigitRun s.toList).map digitsToNat

/-- The match of `[A-Z]{2,3}` if it starts at the head of the char list:
two uppercase letters, greedily extended to a third. -/
def gradeRunAt : List Char → Option (List Char)
  | c1 :: c2 :: rest =>
    if c1.isUpper ∧ c2.isUpper then
      some (c1 :: c2 :: (rest.takeWhile Char.isUpper).take 1)
    else none
  | _ => none

/-- `re.search('([A-Z]{2,3})', s)`: try every start position left to right. -/
def firstGradeRun : List Char → Option (List Char)
  | [] => none
  | c :: rest =>
    match gradeRunAt (c :: rest) with
    | some r => some r
    | none => firstGradeRun rest

/-- `final_col.astype(str).str.extract('([A-Z]{2,3})')[0]` on one cell. -/
def extractGrade (s : String) : Option String :=
  (firstGradeRun s.toList).map (fun cs => String.mk cs)

/-- A pandas dataframe, column-major: a list of (column name, cell values). -/
structure Frame where
  cols : List (String × List Cell)
deriving DecidableEq, Repr

namespace Frame

/-- `df.columns`. -/
def colNames (df : Frame) : List String := df.cols.map Prod.fst

/-- `len(df)`: the common length of the columns (length of the first one). -/
def nRows (df : Frame) : Nat := ((df.cols.headD ("", [])).2).length

/-- All columns have the same length (true of every real dataframe). -/
def WellFormed (df : Frame) : Prop :=
  ∀ p ∈ df.cols, p.2.length = df.nRows

instance (df : Frame) : Decidable df.WellFormed := by
  unfold WellFormed; infer_instance

/-- `df.iloc[1:].reset_index(drop=True)`: drop the first row. -/
def dropFirstRow (df : Frame) : Frame :=
  ⟨df.cols.map (fun p => (p.1, p.2.drop 1))⟩

/-- `df.columns = df.columns.str.strip()`. -/
def trimColNames (df : Frame) : Frame :=
  ⟨df.cols.map (fun p => (pyStrip p.1, p.2))⟩

/-- `df.iloc[:, j]` values (callers establish the bound). -/
def icol (df : Frame) (j : Nat) : List Cell := ((df.cols.getD j ("", [])).2)

/-- `df.iloc[0, 0]`. -/
def headCell (df : Frame) : Cell := (df.icol 0).headD Cell.na

/-- `df[name] = vals`: overwrite the column of that name, else append. -/
def setCol (df : Frame) (name : String) (vals : List Cell) : Frame :=
  if name ∈ df.colNames then
    ⟨df.cols.map (fun p => if p.1 = name then (p.1, vals) else p)⟩
  else
    ⟨df.cols ++ [(name, vals)]⟩

/-- `df[name]` (first column of that name), `none` on a `KeyError`. -/
def getCol (df : Frame) (name : String) : Option (List Cell) :=
  (df.cols.find? (fun p => p.1 = name)).map Prod.snd

end Frame

/-- The header-skip test of `process_dataframe` (line 129):
`'Student ID' in df.columns and len(df) > 0 and str(df.iloc[0,0]).startswith('ACTL')`. -/
def shouldDropHeader (df : Frame) : Bool :=
  "Student ID" ∈ df.colNames && 0 < df.nRows
    && pyStartsWith (cellToStr df.headCell) "ACTL"

/-- Lines 128–133 of `process_dataframe`: skip the first row if it's header
info, then clean the column names. -/
def preprocessed (df : Frame) : Frame :=
  (if shouldDropHeader df then df.dropFirstRow else df).trimColNames

/-- Line 137 on one cell of column D:
`str.extract('(\d+)').astype(float)`. -/
def markCell (c : Cell) : Cell :=
  match extractDigits (cellToStr c) with
  | some n => Cell.num (n : ℚ)
  | none => Cell.na

/-- Line 138 on one cell of column D: `str.extract('([A-Z]{2,3})')[0]`. -/
def gradeCell (c : Cell) : Cell :=
  match extractGrade (cellToStr c) with
  | some g => Cell.str g
  | none => Cell.na

/-- Line 141 on one cell of column 0: `.astype(str).str.strip()`. -/
def sidCell (c : Cell) : Cell :=
  Cell.str (pyStrip (cellToStr c))

/-- Line 137: `df['Final_Mark'] = final_col.astype(str).str.extract('(\d+)').astype(float)`
with `final_col = df.iloc[:, 3]` (line 136). -/
def dfWithMarks (df : Frame) : Frame :=
  (preprocessed df).setCol "Final_Mark" (((preprocessed df).icol 3).map markCell)

/-- Line 138: `df['Grade'] = final_col.astype(str).str.extract('([A-Z]{2,3})')[0]`
(`final_col` was captured at line 136, before the `Final_Mark` assignment). -/
def dfWithGrades (df : Frame) : Frame :=
  (dfWithMarks df).setCol "Grade" (((preprocessed df).icol 3).map gradeCell)

/-- Line 141: `df['Student ID'] = df.iloc[:, 0].astype(str).str.strip()`,
reading column 0 of the current frame. -/
def processedFrame (df : Frame) : Frame :=
  (dfWithGrades df).setCol "Student ID" (((dfWithGrades df).icol 0).map sidCell)

/-- `process_dataframe(df)` (lines 126–143), statement by statement.
`df.iloc[:, 3]` raises `IndexError` when there are fewer than 4 columns;
that is the one failure point, modelled with `Except`. -/
def process_dataframe (df : Frame) : Except String Frame :=
  if 3 < (preprocessed df).cols.length then
    Except.ok (processedFrame df)
  else
    Except.error "IndexError: single positional indexer is out-of-bounds"

/-- `series.value_counts()`: one `(value, count)` entry per distinct non-null
value. (pandas orders the entries by descending count; the script only reads
the table through `.get`, for which the entry order is immaterial, so entries
are kept in first-occurrence order here.) -/
def value_counts (col : List Cell) : List (Cell × Nat) :=
  ((col.filter (fun c => c ≠ Cell.na)).dedup).map (fun v => (v, col.count v))

/-- `counts.get(key, 0)`. -/
def countsGet (vc : List (Cell × Nat)) (key : Cell) : Nat :=
  ((vc.find? (fun p => p.1 = key)).map Prod.snd).getD 0

/-- `grade_order = ['HD', 'DN', 'CR', 'PS', 'FL']` (line 150). -/
def grade_order : List String := ["HD", "DN", "CR", "PS", "FL"]

/-- The body of `get_grade_distribution` on the `Grade` column: for each
bucket in `grade_order`, `(grade, count, percentage)` with
`count = grade_counts.get(grade, 0)` and
`percentage = count / total * 100 if total > 0 else 0`,
where `total = len(df[df['Grade'].notna()])`. -/
def grade_distribution_of (col : List Cell) : List (String × Nat × ℚ) :=
  let grade_counts := value_counts col
  let total := (col.filter (fun c => c ≠ Cell.na)).length
  grade_order.map (fun grade =>
    let count := countsGet grade_counts (Cell.str grade)
    let percentage : ℚ := if 0 < total then (count : ℚ) / (total : ℚ) * 100 else 0
    (grade, count, percentage))

/-- `get_grade_distribution(df)` (lines 145–158). `df['Grade']` raises
`KeyError` when the column is absent. -/
def get_grade_distribution (df : Frame) : Except String (List (String × Nat × ℚ)) :=
  match df.getCol "Grade" with
  | some col => Except.ok (grade_distribution_of col)
  | none => Except.error "KeyError: Grade"

/-- The Student-ID entries of a processed table as python strings
(`df['Student ID']` holds strings after processing). -/
def studentIDList (df : Frame) : List String :=
  ((df.getCol "Student ID").getD []).map cellToStr

/-- `common_ids = set(df1['Student ID']) & set(df2['Student ID'])`
(line 332). -/
def common_ids (d1 d2 : Frame) : Finset String :=
  (studentIDList d1).toFinset ∩ (studentIDList d2).toFinset

/-- `df[['Student ID', col]]` as a list of `(id, value)` rows. -/
def idValuePairs (df : Frame) (col : String) : List (String × Cell) :=
  (studentIDList df).zip ((df.getCol col).getD [])

/-- One row of the detailed-comparison table. -/
structure CompRow where
  sid : String
  v1 : Cell
  v2 : Cell
  diff : Cell
deriving DecidableEq, Repr

/-- Float subtraction for the `Difference` column; NaN propagates. -/
def cellSub : Cell → Cell → Cell
  | Cell.num x, Cell.num y => Cell.num (x - y)
  | _, _ => Cell.na

/-- `left.merge(right, on='Student ID')`: inner join, left rows in order,
each matched against the right rows of the same key in order. -/
def mergeOn (left right : List (String × Cell)) : List (String × Cell × Cell) :=
  left.flatMap (fun p =>
    (right.filter (fun q => q.1 = p.1)).map (fun q => (p.1, p.2, q.2)))

/-- Comparison key for `sort_values('Difference', ascending=False)`:
numeric differences descending, NaN last (pandas default `na_position`). -/
def diffGE (a b : CompRow) : Bool :=
  match a.diff, b.diff with
  | Cell.num x, Cell.num y => decide (y ≤ x)
  | Cell.num _, _ => true
  | Cell.str _, Cell.num _ => false
  | Cell.na, Cell.num _ => false
  | _, _ => true

/-- Insert into a descending-sorted row list. -/
def insertDesc (r : CompRow) : List CompRow → List CompRow
  | [] => [r]
  | x :: xs => if diffGE r x then r :: x :: xs else x :: insertDesc r xs

/-- `sort_values('Difference', ascending=False)` (pandas's quicksort is
unstable, so any Difference-descending order realises it). -/
def sortRowsDesc : List CompRow → List CompRow
  | [] => []
  | x :: xs => insertDesc x (sortRowsDesc xs)

/-- The detailed comparison table (lines 496–505): restrict both tables to
the common students, inner-merge on `Student ID`, add the `Difference`
column (File 2 minus File 1), sort by `Difference` descending. -/
def comparison_df (d1 d2 : Frame) (c1 c2 : String) : List CompRow :=
  let common := common_ids d1 d2
  let common_df1 := (idValuePairs d1 c1).filter (fun p => p.1 ∈ common)
  let common_df2 := (idValuePairs d2 c2).filter (fun p => p.1 ∈ common)
  let merged := mergeOn common_df1 common_df2
  sortRowsDesc (merged.map (fun t =>
    { sid := t.1, v1 := t.2.1, v2 := t.2.2, diff := cellSub t.2.2 t.2.1 }))

/-- What the analysis section computes before rendering. -/
structure AnalysisPage where
  d1 : Frame
  d2 : Frame
  dist1 : List (String × Nat × ℚ)
  dist2 : List (String × Nat × ℚ)
  common : Finset String
  comparison : List CompRow

/-- The computation inside the `try:` block (lines 291–515): process both
files, compute the two grade distributions, the common-student set and the
comparison table; any exception escapes as `Except.error`. -/
def analysis_body (f1 f2 : Frame) : Except String AnalysisPage := do
  let d1 ← process_dataframe f1
  let d2 ← process_dataframe f2
  let g1 ← get_grade_distribution d1
  let g2 ← get_grade_distribution d2
  Except.ok { d1 := d1, d2 := d2, dist1 := g1, dist2 := g2,
              common := common_ids d1 d2,
              comparison := comparison_df d1 d2 "Final_Mark" "Final_Mark" }

/-- What ends up on screen: either the rendered analysis page, or the
`st.error(f"Error processing files: {str(e)}")` message. -/
inductive Display where
  | page : AnalysisPage → Display
  | errorMsg : String → Display

/-- The analysis section with its `try`/`except` (lines 290–519): every
exception raised by the body is converted to an on-screen error message. -/
def analysis_section (f1 f2 : Frame) : Display :=
  match analysis_body f1 f2 with
  | Except.ok p => Display.page p
  | Except.error e => Display.errorMsg ("Error processing files: " ++ e)

/-- `len(df[df['Grade'].notna()])`: the number of non-null entries. -/
def nonNull (col : List Cell) : Nat :=
  (col.filter (fun c => c ≠ Cell.na)).length

/-- The spec's reading of a table's student identifiers: the first column's
values coerced to strings with surrounding whitespace removed (stated over
the header-stripped, name-trimmed table that the extraction works on). -/
def specStudentIDs (f : Frame) : List String :=
  ((preprocessed f).icol 0).map (fun c => pyStrip (cellToStr c))

/-- The value recorded for student `s` in the `['Student ID', c]` slice of a
table (unique when the identifiers are). -/
def lookupVal (d : Frame) (c : String) (s : String) : Option Cell :=
  ((idValuePairs d c).find? (fun p => p.1 = s)).map Prod.snd

/-- Is the cell a (non-NaN) number? -/
def Cell.isNum : Cell → Bool
  | Cell.num _ => true
  | _ => false

/-! ### Concrete frames used to instantiate the theorems -/

/-- A one-row gradebook whose column-D cell is `"78 DN"`. -/
def exMark : Frame :=
  ⟨[("Student ID", [Cell.str " 123 "]), ("Name", [Cell.str "A"]),
    ("Email", [Cell.str "e"]), ("Mark", [Cell.str "78 DN"])]⟩

/-- A frame whose `Grade` column has two bucket grades, one stray value
and one NaN. -/
def exGrades : Frame :=
  ⟨[("Grade", [Cell.str "HD", Cell.str "PS", Cell.str "XX", Cell.na])]⟩

/-- A frame whose `Grade` column holds bucket grades only. -/
def exGradesFull : Frame :=
  ⟨[("Grade", [Cell.str "HD", Cell.str "HD", Cell.str "FL"])]⟩

/-- A frame whose `Grade` column is entirely NaN. -/
def exGradesEmpty : Frame :=
  ⟨[("Grade", [Cell.na, Cell.na])]⟩

/-- First gradebook of a comparison pair. -/
def exLeft : Frame :=
  ⟨[("Student ID", [Cell.str "1", Cell.str "2"]), ("Name", [Cell.str "a", Cell.str "b"]),
    ("Email", [Cell.str "e", Cell.str "f"]), ("Mark", [Cell.str "78 DN", Cell.str "51 PS"])]⟩

/-- Second gradebook of a comparison pair; student 2 is shared with
`exLeft`, student 3 is not. -/
def exRight : Frame :=
  ⟨[("Student ID", [Cell.str "2", Cell.str "3"]), ("Name", [Cell.str "b", Cell.str "c"]),
    ("Email", [Cell.str "f", Cell.str "g"]), ("Mark", [Cell.str "90 HD", Cell.str "40 FL"])]⟩

/-- A processed-shape table for the comparison claim: `Student ID` and
`Final_Mark` columns. -/
def exProc1 : Frame :=
  ⟨[("Student ID", [Cell.str "1", Cell.str "2"]),
    ("Final_Mark", [Cell.num 78, Cell.num 51])]⟩

/-- A second processed-shape table sharing students 1 and 2. -/
def exProc2 : Frame :=
  ⟨[("Student ID", [Cell.str "2", Cell.str "1"]),
    ("Final_Mark", [Cell.num 90, Cell.num 40])]⟩

/-- A one-row gradebook whose column-D cell `"X78"` does not begin with a
digit. -/
def exLetterMark : Frame :=
  ⟨[("Student ID", [Cell.str "7"]), ("Name", [Cell.str "A"]),
    ("Email", [Cell.str "e"]), ("Mark", [Cell.str "X78"])]⟩

/-- A two-row gradebook whose first cell does not start with `ACTL`, so no
header row is dropped. -/
def exNoHeader : Frame :=
  ⟨[("Student ID", [Cell.str "9"]), ("Name", [Cell.str "A"]),
    ("Email", [Cell.str "e"]), ("Mark", [Cell.str "78 DN"])]⟩

/-- A gradebook whose first row is an `ACTL...` header row. -/
def exWithHeader : Frame :=
  ⟨[("Student ID", [Cell.str "ACTL5100 header", Cell.str "9"]),
    ("Name", [Cell.str "h", Cell.str "A"]),
    ("Email", [Cell.str "h", Cell.str "e"]),
    ("Mark ", [Cell.str "h", Cell.str "78 DN"])]⟩

/-- A frame with no columns: `df.iloc[:, 3]` raises on it. -/
def exEmpty : Frame := ⟨[]⟩

/-! ### List and frame lemmas -/

theorem find?_map_replace (l : List (String × List Cell)) (n : String)
    (vs : List Cell) (h : n ∈ l.map Prod.fst) :
    (l.map (fun p => if p.1 = n then (p.1, vs) else p)).find?
      (fun p => p.1 = n) = some (n, vs) := by
  induction l with
  | nil => simp at h
  | cons a t ih =>
    by_cases ha : a.1 = n
    · subst ha
      simp [List.find?_cons_of_pos]
    · rw [List.map_cons, if_neg ha, List.find?_cons_of_neg _ (by simpa using ha)]
      rw [List.map_cons, List.mem_cons] at h
      exact ih (h.resolve_left (fun e => ha e.symm))

theorem find?_none_of_not_mem (l : List (String × List Cell)) (n : String)
    (h : n ∉ l.map Prod.fst) :
    l.find? (fun p => p.1 = n) = none := by
  induction l with
  | nil => rfl
  | cons a t ih =>
    have ha : ¬(a.1 = n) := fun e => h (by simp [List.map_cons, e])
    rw [List.find?_cons_of_neg _ (by simpa using ha),
      ih (fun hm => h (by simp [List.map_cons, hm]))]

theorem find?_map_replace_ne (l : List (String × List Cell)) (n m : String)
    (vs : List Cell) (h : m ≠ n) :
    (l.map (fun p => if p.1 = n then (p.1, vs) else p)).find?
      (fun p => p.1 = m) = l.find? (fun p => p.1 = m) := by
  induction l with
  | nil => rfl
  | cons a t ih =>
    by_cases ha : a.1 = n
    · rw [List.map_cons, if_pos ha, List.find?_cons_of_neg _ (by simp [ha, Ne.symm h]),
        List.find?_cons_of_neg _ (by simp [ha, Ne.symm h]), ih]
    · by_cases ham : a.1 = m
      · rw [List.map_cons, if_neg ha, List.find?_cons_of_pos _ (by simpa using ham),
          List.find?_cons_of_pos _ (by simpa using ham)]
      · rw [List.map_cons, if_neg ha, List.find?_cons_of_neg _ (by simpa using ham),
          List.find?_cons_of_neg _ (by simpa using ham), ih]

theorem getCol_setCol_self (df : Frame) (n : String) (vs : List Cell) :
    (df.setCol n vs).getCol n = some vs := by
  unfold Frame.setCol Frame.getCol
  by_cases h : n ∈ df.colNames
  · rw [if_pos h]
    simp only
    rw [find?_map_replace _ _ _ h]
    rfl
  · rw [if_neg h]
    simp only
    rw [List.find?_append, find?_none_of_not_mem _ _ h]
    simp

theorem getCol_setCol_ne (df : Frame) (n m : String) (vs : List Cell)
    (h : m ≠ n) : (df.setCol n vs).getCol m = df.getCol m := by
  unfold Frame.setCol Frame.getCol
  by_cases hm : n ∈ df.colNames
  · rw [if_pos hm]
    simp only
    rw [find?_map_replace_ne _ _ _ _ h]
  · rw [if_neg hm]
    simp only
    rw [List.find?_append]
    cases hf : (df.cols.find? (fun p => p.1 = m)) with
    | some p => simp
    | none => simp [Ne.symm h]

theorem icol_trimColNames (df : Frame) (j : Nat) :
    (df.trimColNames).icol j = df.icol j := by
  rcases df with ⟨l⟩
  unfold Frame.trimColNames Frame.icol
  simp only
  induction l generalizing j with
  | nil => rfl
  | cons a t ih =>
    cases j with
    | zero => rfl
    | succ k => simpa using ih k

theorem icol_dropFirstRow (df : Frame) (j : Nat) :
    (df.dropFirstRow).icol j = (df.icol j).drop 1 := by
  rcases df with ⟨l⟩
  unfold Frame.dropFirstRow Frame.icol
  simp only
  induction l generalizing j with
  | nil => rfl
  | cons a t ih =>
    cases j with
    | zero => rfl
    | succ k => simpa using ih k

theorem colNames_setCol_not_mem (df : Frame) (n : String) (vs : List Cell)
    (h : n ∉ df.colNames) :
    (df.setCol n vs).colNames = df.colNames ++ [n] := by
  unfold Frame.setCol
  rw [if_neg h]
  unfold Frame.colNames
  simp

theorem cols_length_setCol_not_mem (df : Frame) (n : String) (vs : List Cell)
    (h : n ∉ df.colNames) :
    (df.setCol n vs).cols.length = df.cols.length + 1 := by
  unfold Frame.setCol
  rw [if_neg h]
  simp

theorem icol_setCol_not_mem (df : Frame) (n : String) (vs : List Cell)
    (h : n ∉ df.colNames) (j : Nat) (hj : j < df.cols.length) :
    (df.setCol n vs).icol j = df.icol j := by
  unfold Frame.setCol
  rw [if_neg h]
  unfold Frame.icol
  simp only
  rw [List.getD_append _ _ _ _ hj]

theorem process_ok_iff (df out : Frame) :
    process_dataframe df = Except.ok out ↔
      3 < (preprocessed df).cols.length ∧ out = processedFrame df := by
  unfold process_dataframe
  by_cases h3 : 3 < (preprocessed df).cols.length
  · rw [if_pos h3]
    constructor
    · intro h
      exact ⟨h3, (Except.ok.inj h).symm⟩
    · rintro ⟨-, rfl⟩
      rfl
  · rw [if_neg h3]
    constructor
    · intro h
      exact absurd h (by simp)
    · rintro ⟨h, -⟩
      exact absurd h h3

theorem getCol_FinalMark_of_ok {df out : Frame}
    (h : process_dataframe df = Except.ok out) :
    out.getCol "Final_Mark" = some (((preprocessed df).icol 3).map markCell) := by
  obtain ⟨h3, rfl⟩ := (process_ok_iff df out).1 h
  unfold processedFrame dfWithGrades
  rw [getCol_setCol_ne _ _ _ _ (by decide), getCol_setCol_ne _ _ _ _ (by decide)]
  exact getCol_setCol_self _ _ _

theorem getCol_Grade_of_ok {df out : Frame}
    (h : process_dataframe df = Except.ok out) :
    out.getCol "Grade" = some (((preprocessed df).icol 3).map gradeCell) := by
  obtain ⟨h3, rfl⟩ := (process_ok_iff df out).1 h
  unfold processedFrame
  rw [getCol_setCol_ne _ _ _ _ (by decide)]
  unfold dfWithGrades
  exact getCol_setCol_self _ _ _

theorem getCol_StudentID_of_ok {df out : Frame}
    (h : process_dataframe df = Except.ok out) :
    out.getCol "Student ID" = some (((dfWithGrades df).icol 0).map sidCell) := by
  obtain ⟨h3, rfl⟩ := (process_ok_iff df out).1 h
  unfold processedFrame
  exact getCol_setCol_self _ _ _

theorem icol0_dfWithGrades (df : Frame)
    (hFM : "Final_Mark" ∉ (preprocessed df).colNames)
    (hG : "Grade" ∉ (preprocessed df).colNames)
    (h3 : 3 < (preprocessed df).cols.length) :
    (dfWithGrades df).icol 0 = (preprocessed df).icol 0 := by
  have hG' : "Grade" ∉ (dfWithMarks df).colNames := by
    unfold dfWithMarks
    rw [colNames_setCol_not_mem _ _ _ hFM]
    simp [hG]
  have hlen : (dfWithMarks df).cols.length = (preprocessed df).cols.length + 1 := by
    unfold dfWithMarks
    exact cols_length_setCol_not_mem _ _ _ hFM
  unfold dfWithGrades
  rw [icol_setCol_not_mem _ _ _ hG' 0 (by omega)]
  unfold dfWithMarks
  exact icol_setCol_not_mem _ _ _ hFM 0 (by omega)

theorem getCol_StudentID_of_ok' {df out : Frame}
    (h : process_dataframe df = Except.ok out)
    (hFM : "Final_Mark" ∉ (preprocessed df).colNames)
    (hG : "Grade" ∉ (preprocessed df).colNames) :
    out.getCol "Student ID" = some (((preprocessed df).icol 0).map sidCell) := by
  have h3 := ((process_ok_iff df out).1 h).1
  rw [getCol_StudentID_of_ok h, icol0_dfWithGrades df hFM hG h3]

/-! ### C7: exceptions become on-screen messages -/

/-- C7: every exception raised in the analysis phase is converted by the
`try`/`except` into the on-screen `Error processing files:` message rather
than propagating, and a successful body is rendered as the page — the
section performs no other recovery action. -/
theorem analysis_section_catches (f1 f2 : Frame) :
    (∀ e, analysis_body f1 f2 = Except.error e →
        analysis_section f1 f2 = Display.errorMsg ("Error processing files: " ++ e)) ∧
    (∀ p, analysis_body f1 f2 = Except.ok p →
        analysis_section f1 f2 = Display.page p) := by
  constructor <;> intro x hx <;> unfold analysis_section <;> rw [hx]

/-- Witness for C7: on a pair of empty tables the body raises `IndexError`
and the screen shows the converted message. -/
theorem analysis_section_catches_witness :
    analysis_section exEmpty exEmpty =
      Display.errorMsg
        "Error processing files: IndexError: single positional indexer is out-of-bounds" :=
  (analysis_section_catches exEmpty exEmpty).1
    "IndexError: single positional indexer is out-of-bounds" (by rfl)

/-! ### C10: other columns pass through unchanged -/

theorem filter_setCol_mem (df : Frame) (n : String) (vs : List Cell)
    (bad : List String) (hm : n ∈ bad) :
    (df.setCol n vs).cols.filter (fun p => p.1 ∉ bad) =
      df.cols.filter (fun p => p.1 ∉ bad) := by
  unfold Frame.setCol
  by_cases h : n ∈ df.colNames
  · rw [if_pos h]
    simp only
    induction df.cols with
    | nil => rfl
    | cons a t ih =>
      by_cases ha : a.1 = n
      · rw [List.map_cons, if_pos ha, List.filter_cons, List.filter_cons]
        simp only [ha, hm]
        simpa [hm] using ih
      · rw [List.map_cons, if_neg ha, List.filter_cons, List.filter_cons]
        by_cases hb : a.1 ∈ bad
        · simpa [hb] using ih
        · simp only [hb]
          simpa [hb] using congrArg (List.cons a) ih
  · rw [if_neg h]
    simp only
    rw [List.filter_append]
    simp [hm]

/-- C10: apart from trimming column names, optionally dropping the first
row, overwriting `Student ID` and writing the `Final_Mark` and `Grade`
columns, `process_dataframe` leaves every column untouched: the columns
of the output other than those three are exactly the corresponding columns
of the header-stripped, name-trimmed input, names and cell values alike. -/
theorem process_preserves_other_columns (df out : Frame)
    (h : process_dataframe df = Except.ok out) :
    out.cols.filter (fun p => p.1 ∉ ["Student ID", "Final_Mark", "Grade"]) =
      (preprocessed df).cols.filter
        (fun p => p.1 ∉ ["Student ID", "Final_Mark", "Grade"]) := by
  obtain ⟨h3, rfl⟩ := (process_ok_iff df out).1 h
  unfold processedFrame dfWithGrades dfWithMarks
  rw [filter_setCol_mem _ _ _ _ (by decide), filter_setCol_mem _ _ _ _ (by decide),
    filter_setCol_mem _ _ _ _ (by decide)]

/-- Witness for C10: on a concrete gradebook the `Name`, `Email` and `Mark`
columns of the processed output are exactly those of the input. -/
theorem process_preserves_other_columns_witness :
    (processedFrame exMark).cols.filter
        (fun p => p.1 ∉ ["Student ID", "Final_Mark", "Grade"]) =
      (preprocessed exMark).cols.filter
        (fun p => p.1 ∉ ["Student ID", "Final_Mark", "Grade"]) :=
  process_preserves_other_columns exMark (processedFrame exMark) (by rfl)

/-! ### C6: the header row is dropped only conditionally -/

theorem icol_mem_cols (df : Frame) (j : Nat) (hj : j < df.cols.length) :
    (df.cols.getD j ("", [])) ∈ df.cols := by
  rw [List.getD_eq_getElem df.cols _ hj]
  exact List.getElem_mem hj

theorem preprocessed_col_lengths (df : Frame) (hwf : df.WellFormed) :
    ∀ p ∈ (preprocessed df).cols,
      p.2.length = if shouldDropHeader df then df.nRows - 1 else df.nRows := by
  intro p hp
  unfold preprocessed Frame.trimColNames at hp
  by_cases hd : shouldDropHeader df
  · rw [if_pos hd] at hp
    rw [if_pos hd]
    unfold Frame.dropFirstRow at hp
    simp only [List.map_map, List.mem_map] at hp
    obtain ⟨q, hq, rfl⟩ := hp
    simpa using congrArg (fun n => n - 1) (hwf q hq)
  · rw [if_neg hd] at hp
    rw [if_neg hd]
    simp only [List.mem_map] at hp
    obtain ⟨q, hq, rfl⟩ := hp
    exact hwf q hq

theorem setCol_col_lengths (df : Frame) (n : String) (vs : List Cell) (N : Nat)
    (hall : ∀ p ∈ df.cols, p.2.length = N) (hvs : vs.length = N) :
    ∀ p ∈ (df.setCol n vs).cols, p.2.length = N := by
  intro p hp
  unfold Frame.setCol at hp
  by_cases h : n ∈ df.colNames
  · rw [if_pos h] at hp
    simp only [List.mem_map] at hp
    obtain ⟨q, hq, rfl⟩ := hp
    by_cases hqn : q.1 = n
    · simpa [hqn] using hvs
    · simpa [hqn] using hall q hq
  · rw [if_neg h] at hp
    simp only [List.mem_append, List.mem_singleton] at hp
    rcases hp with hp | rfl
    · exact hall p hp
    · exact hvs

theorem cols_length_setCol_ge (df : Frame) (n : String) (vs : List Cell) :
    df.cols.length ≤ (df.setCol n vs).cols.length := by
  unfold Frame.setCol
  by_cases h : n ∈ df.colNames
  · rw [if_pos h]; simp
  · rw [if_neg h]; simp

theorem icol_length_of_all (df : Frame) (N : Nat)
    (hall : ∀ p ∈ df.cols, p.2.length = N) (j : Nat) (hj : j < df.cols.length) :
    (df.icol j).length = N :=
  hall _ (icol_mem_cols df j hj)

theorem processedFrame_col_lengths (df : Frame) (hwf : df.WellFormed)
    (h3 : 3 < (preprocessed df).cols.length) :
    ∀ p ∈ (processedFrame df).cols,
      p.2.length = if shouldDropHeader df then df.nRows - 1 else df.nRows := by
  have hB := preprocessed_col_lengths df hwf
  have hfm : (((preprocessed df).icol 3).map markCell).length =
      if shouldDropHeader df then df.nRows - 1 else df.nRows := by
    rw [List.length_map]
    exact icol_length_of_all _ _ hB 3 h3
  have hgr : (((preprocessed df).icol 3).map gradeCell).length =
      if shouldDropHeader df then df.nRows - 1 else df.nRows := by
    rw [List.length_map]
    exact icol_length_of_all _ _ hB 3 h3
  have hC : ∀ p ∈ (dfWithMarks df).cols,
      p.2.length = if shouldDropHeader df then df.nRows - 1 else df.nRows :=
    setCol_col_lengths (preprocessed df) "Final_Mark"
      (((preprocessed df).icol 3).map markCell) _ hB hfm
  have hD : ∀ p ∈ (dfWithGrades df).cols,
      p.2.length = if shouldDropHeader df then df.nRows - 1 else df.nRows :=
    setCol_col_lengths (dfWithMarks df) "Grade"
      (((preprocessed df).icol 3).map gradeCell) _ hC hgr
  have hlenD : 0 < (dfWithGrades df).cols.length := by
    have g2 : (dfWithMarks df).cols.length ≤ (dfWithGrades df).cols.length :=
      cols_length_setCol_ge _ _ _
    have g4 : (preprocessed df).cols.length ≤ (dfWithMarks df).cols.length :=
      cols_length_setCol_ge _ _ _
    omega
  have hsid : (((dfWithGrades df).icol 0).map sidCell).length =
      if shouldDropHeader df then df.nRows - 1 else df.nRows := by
    rw [List.length_map]
    exact icol_length_of_all _ _ hD 0 hlenD
  exact setCol_col_lengths (dfWithGrades df) "Student ID"
    (((dfWithGrades df).icol 0).map sidCell) _ hD hsid

/-- C6 (amended): the first row is removed, and the row count drops by one,
exactly when the line-129 test holds — `'Student ID'` is among the columns,
the table is nonempty, and the first cell's string starts with `ACTL`;
otherwise the row count is preserved. -/
theorem process_row_count (df out : Frame) (hwf : df.WellFormed)
    (h : process_dataframe df = Except.ok out) :
    out.nRows = if shouldDropHeader df then df.nRows - 1 else df.nRows := by
  obtain ⟨h3, rfl⟩ := (process_ok_iff df out).1 h
  have hall := processedFrame_col_lengths df hwf h3
  have hne : (processedFrame df).cols ≠ [] := by
    have g1 : (dfWithGrades df).cols.length ≤ (processedFrame df).cols.length :=
      cols_length_setCol_ge _ _ _
    have g2 : (dfWithMarks df).cols.length ≤ (dfWithGrades df).cols.length :=
      cols_length_setCol_ge _ _ _
    have g4 : (preprocessed df).cols.length ≤ (dfWithMarks df).cols.length :=
      cols_length_setCol_ge _ _ _
    intro hnil
    rw [hnil] at g1
    simp only [List.length_nil, Nat.le_zero] at g1
    omega
  rcases hc : (processedFrame df).cols with _ | ⟨a, t⟩
  · exact absurd hc hne
  · have ha : a ∈ (processedFrame df).cols := by rw [hc]; exact List.mem_cons_self a t
    unfold Frame.nRows
    rw [hc]
    exact hall a ha

/-- Counterexample to C6 as stated: on a table whose first cell does not
start with `ACTL`, `process_dataframe` keeps all rows — the output has the
same single row as the input, not one fewer. -/
theorem process_row_count_counterexample :
    (process_dataframe exNoHeader).map Frame.nRows =
        Except.ok exNoHeader.nRows ∧ exNoHeader.nRows = 1 :=
  ⟨rfl, rfl⟩

/-- Witness for C6 (amended): on a table with an `ACTL` header row the
processed output has one row fewer, and on `exNoHeader` the count is kept. -/
theorem process_row_count_witness :
    exWithHeader.WellFormed ∧
      (processedFrame exWithHeader).nRows =
        if shouldDropHeader exWithHeader then exWithHeader.nRows - 1
        else exWithHeader.nRows :=
  ⟨by decide, process_row_count exWithHeader (processedFrame exWithHeader)
    (by decide) (by rfl)⟩

/-! ### C2, C8, C9: the grade distribution -/

theorem find?_map_count (l : List Cell) (key : Cell) (cnt : Cell → Nat)
    (h : key ∈ l) :
    (l.map (fun v => (v, cnt v))).find? (fun p => p.1 = key) =
      some (key, cnt key) := by
  induction l with
  | nil => simp at h
  | cons a t ih =>
    by_cases ha : a = key
    · subst ha
      rw [List.map_cons, List.find?_cons_of_pos _ (by simp)]
    · rw [List.map_cons, List.find?_cons_of_neg _ (by simpa using ha)]
      refine ih ?_
      rcases List.mem_cons.1 h with e | hm
      · exact absurd e.symm ha
      · exact hm

theorem find?_map_count_none (l : List Cell) (key : Cell) (cnt : Cell → Nat)
    (h : key ∉ l) :
    (l.map (fun v => (v, cnt v))).find? (fun p => p.1 = key) = none := by
  induction l with
  | nil => rfl
  | cons a t ih =>
    rw [List.map_cons,
      List.find?_cons_of_neg _ (by simp; intro e; exact h (e ▸ List.mem_cons_self a t))]
    exact ih (fun hm => h (List.mem_cons_of_mem a hm))

theorem countsGet_value_counts (col : List Cell) (g : String) :
    countsGet (value_counts col) (Cell.str g) = col.count (Cell.str g) := by
  unfold countsGet value_counts
  by_cases hmem : Cell.str g ∈ col
  · have hf : Cell.str g ∈ (col.filter (fun c => c ≠ Cell.na)).dedup := by
      rw [List.mem_dedup, List.mem_filter]
      exact ⟨hmem, by simp⟩
    rw [find?_map_count _ _ _ hf]
    rfl
  · have hf : Cell.str g ∉ (col.filter (fun c => c ≠ Cell.na)).dedup := by
      rw [List.mem_dedup, List.mem_filter]
      exact fun h => hmem h.1
    rw [find?_map_count_none _ _ _ hf]
    simp [List.count_eq_zero_of_not_mem hmem]

theorem grade_distribution_spec (col : List Cell) :
    grade_distribution_of col = grade_order.map (fun g =>
      (g, col.count (Cell.str g),
        (col.count (Cell.str g) : ℚ) / (nonNull col : ℚ) * 100)) := by
  unfold grade_distribution_of
  simp only
  refine List.map_congr_left (fun g _ => ?_)
  rw [countsGet_value_counts]
  by_cases ht : 0 < (col.filter (fun c => c ≠ Cell.na)).length
  · rw [if_pos ht]
    rfl
  · rw [if_neg ht]
    have h0 : (nonNull col : ℚ) = 0 := by
      have hz : nonNull col = 0 := by unfold nonNull; omega
      rw [hz]
      norm_num
    rw [h0, div_zero, zero_mul]

/-- C2: for a dataframe with a `Grade` column, `get_grade_distribution`
returns, for each bucket in the order HD, DN, CR, PS, FL, the number of
rows whose `Grade` equals that bucket together with that count divided by
the number of rows with a non-null `Grade`, times 100. -/
theorem get_grade_distribution_correct (df : Frame) (col : List Cell)
    (hcol : df.getCol "Grade" = some col) :
    get_grade_distribution df = Except.ok (grade_order.map (fun g =>
      (g, col.count (Cell.str g),
        (col.count (Cell.str g) : ℚ) / (nonNull col : ℚ) * 100))) := by
  unfold get_grade_distribution
  rw [hcol]
  show Except.ok (grade_distribution_of col) = _
  rw [grade_distribution_spec]

/-- Witness for C2 at a concrete `Grade` column with values
HD, PS, XX, NaN. -/
theorem get_grade_distribution_correct_witness :
    get_grade_distribution exGrades = Except.ok (grade_order.map (fun g =>
      (g, [Cell.str "HD", Cell.str "PS", Cell.str "XX", Cell.na].count (Cell.str g),
        ([Cell.str "HD", Cell.str "PS", Cell.str "XX", Cell.na].count (Cell.str g) : ℚ) /
          (nonNull [Cell.str "HD", Cell.str "PS", Cell.str "XX", Cell.na] : ℚ) * 100))) :=
  get_grade_distribution_correct exGrades
    [Cell.str "HD", Cell.str "PS", Cell.str "XX", Cell.na] (by rfl)

/-- C9: when no row has a non-null `Grade`, the `total > 0` guard makes
`get_grade_distribution` return count 0 and percentage 0 for every bucket
instead of dividing by zero. -/
theorem get_grade_distribution_all_na (df : Frame) (col : List Cell)
    (hcol : df.getCol "Grade" = some col) (hna : ∀ c ∈ col, c = Cell.na) :
    get_grade_distribution df = Except.ok (grade_order.map (fun g => (g, 0, 0))) := by
  rw [get_grade_distribution_correct df col hcol]
  refine congrArg Except.ok (List.map_congr_left (fun g _ => ?_))
  have hc : col.count (Cell.str g) = 0 :=
    List.count_eq_zero_of_not_mem (fun hm => by cases hna _ hm)
  rw [hc]
  norm_num

/-- Witness for C9 at a concrete all-NaN `Grade` column. -/
theorem get_grade_distribution_all_na_witness :
    get_grade_distribution exGradesEmpty =
      Except.ok (grade_order.map (fun g => (g, 0, 0))) :=
  get_grade_distribution_all_na exGradesEmpty [Cell.na, Cell.na] (by rfl)
    (by decide)

theorem map_add_sum (S : List Cell) (f g : Cell → Nat) :
    (S.map (fun v => f v + g v)).sum = (S.map f).sum + (S.map g).sum := by
  induction S with
  | nil => rfl
  | cons a t ih =>
    simp only [List.map_cons, List.sum_cons, ih]
    omega

theorem indicator_sum (S : List Cell) (c : Cell) (hnd : S.Nodup) :
    (S.map (fun v => if c = v then 1 else 0)).sum = if c ∈ S then 1 else 0 := by
  induction S with
  | nil => simp
  | cons s t ih =>
    rw [List.nodup_cons] at hnd
    rw [List.map_cons, List.sum_cons]
    by_cases hcs : c = s
    · subst hcs
      rw [if_pos rfl, ih hnd.2, if_neg hnd.1, if_pos (List.mem_cons_self c t)]
    · rw [if_neg hcs, ih hnd.2]
      by_cases hct : c ∈ t
      · rw [if_pos hct, if_pos (List.mem_cons_of_mem s hct)]
      · rw [if_neg hct, if_neg (by
          intro hm
          rcases List.mem_cons.1 hm with e | h
          · exact hcs e
          · exact hct h)]

theorem sum_counts_eq_countP (col : List Cell) (S : List Cell) (hnd : S.Nodup) :
    (S.map (fun v => col.count v)).sum = col.countP (fun c => c ∈ S) := by
  induction col with
  | nil => simp
  | cons c t ih =>
    rw [List.countP_cons]
    have hstep : (S.map (fun v => (c :: t).count v)).sum =
        (S.map (fun v => t.count v + if c = v then 1 else 0)).sum := by
      refine congrArg List.sum (List.map_congr_left fun v _ => ?_)
      rw [List.count_cons]
      simp [beq_iff_eq]
    rw [hstep, map_add_sum, ih, indicator_sum S c hnd]
    simp

theorem countP_le_countP {α : Type} (l : List α) (p q : α → Bool)
    (h : ∀ a ∈ l, p a = true → q a = true) :
    l.countP p ≤ l.countP q := by
  induction l with
  | nil => simp
  | cons a t ih =>
    rw [List.countP_cons, List.countP_cons]
    have ht := ih (fun x hx => h x (List.mem_cons_of_mem a hx))
    by_cases hp : p a = true
    · rw [if_pos hp, if_pos (h a (List.mem_cons_self a t) hp)]
      omega
    · rw [if_neg hp]
      by_cases hq : q a = true
      · rw [if_pos hq]; omega
      · rw [if_neg hq]; omega

theorem countP_eq_iff_all {α : Type} (l : List α) (p q : α → Bool)
    (h : ∀ a ∈ l, p a = true → q a = true) :
    l.countP p = l.countP q ↔ ∀ a ∈ l, q a = true → p a = true := by
  induction l with
  | nil => simp
  | cons a t ih =>
    have ht := ih (fun x hx => h x (List.mem_cons_of_mem a hx))
    have hle := countP_le_countP t p q (fun x hx => h x (List.mem_cons_of_mem a hx))
    rw [List.countP_cons, List.countP_cons]
    by_cases hp : p a = true
    · rw [if_pos hp, if_pos (h a (List.mem_cons_self a t) hp)]
      constructor
      · intro he x hx hqx
        rcases List.mem_cons.1 hx with rfl | hx'
        · exact hp
        · exact (ht.1 (by omega)) x hx' hqx
      · intro hall
        have := ht.2 (fun x hx hqx => hall x (List.mem_cons_of_mem a hx) hqx)
        omega
    · by_cases hq : q a = true
      · rw [if_neg hp, if_pos hq]
        constructor
        · intro he
          exact absurd he (by omega)
        · intro hall
          exact absurd (hall a (List.mem_cons_self a t) hq) hp
      · rw [if_neg hp, if_neg hq]
        constructor
        · intro he x hx hqx
          rcases List.mem_cons.1 hx with rfl | hx'
          · exact absurd hqx hq
          · exact (ht.1 (by omega)) x hx' hqx
        · intro hall
          have := ht.2 (fun x hx hqx => hall x (List.mem_cons_of_mem a hx) hqx)
          omega

/-- C8: the distribution table has exactly the five buckets HD, DN, CR, PS,
FL as keys, in that order; since stray non-null grades enter the denominator
but no bucket, when some row has a non-null grade the five percentages sum
to at most 100, with equality exactly when every non-null grade is one of
the five buckets. -/
theorem grade_distribution_buckets (df : Frame) (col : List Cell)
    (l : List (String × Nat × ℚ))
    (hcol : df.getCol "Grade" = some col)
    (hl : get_grade_distribution df = Except.ok l) :
    l.map (fun t => t.1) = grade_order ∧
    (0 < nonNull col →
      (l.map (fun t => t.2.2)).sum ≤ 100 ∧
      ((l.map (fun t => t.2.2)).sum = 100 ↔
        ∀ c ∈ col, c ≠ Cell.na → ∃ g ∈ grade_order, c = Cell.str g)) := by
  -- identify the returned table
  unfold get_grade_distribution at hl
  rw [hcol] at hl
  have hl2 : Except.ok (grade_distribution_of col) = Except.ok l := hl
  have hleq : l = grade_order.map (fun g =>
      (g, col.count (Cell.str g),
        (col.count (Cell.str g) : ℚ) / (nonNull col : ℚ) * 100)) := by
    rw [← Except.ok.inj hl2, grade_distribution_spec]
  subst hleq
  constructor
  · rw [List.map_map]
    exact (List.map_congr_left (fun g _ => rfl)).trans (List.map_id _)
  intro hT
  have hTQ : (0 : ℚ) < (nonNull col : ℚ) := by exact_mod_cast hT
  -- the numerator: total bucket count
  have hK : (grade_order.map (fun g => col.count (Cell.str g))).sum =
      col.countP (fun c => c ∈ grade_order.map Cell.str) := by
    have hmm : grade_order.map (fun g => col.count (Cell.str g)) =
        (grade_order.map Cell.str).map (fun v => col.count v) := by
      rw [List.map_map]
      rfl
    rw [hmm]
    exact sum_counts_eq_countP col _ (by decide)
  have hnn : nonNull col = col.countP (fun c => c ≠ Cell.na) := by
    unfold nonNull
    rw [← List.countP_eq_length_filter]
  have himp : ∀ a ∈ col, (decide (a ∈ grade_order.map Cell.str)) = true →
      (decide (a ≠ Cell.na)) = true := by
    intro a _ hp
    rw [decide_eq_true_eq] at hp
    rw [decide_eq_true_eq]
    rcases List.mem_map.1 hp with ⟨g, -, rfl⟩
    simp
  have hKle : col.countP (fun c => c ∈ grade_order.map Cell.str) ≤
      col.countP (fun c => c ≠ Cell.na) :=
    countP_le_countP col _ _ himp
  -- the percentage sum in closed form
  have hsum : ((grade_order.map (fun g =>
      (g, col.count (Cell.str g),
        (col.count (Cell.str g) : ℚ) / (nonNull col : ℚ) * 100))).map
        (fun t => t.2.2)).sum =
      ((col.countP (fun c => c ∈ grade_order.map Cell.str) : ℚ) /
        (nonNull col : ℚ)) * 100 := by
    rw [← hK]
    simp only [grade_order, List.map_cons, List.map_nil, List.sum_cons,
      List.sum_nil]
    push_cast
    ring
  rw [hsum]
  constructor
  · -- at most 100
    rw [div_mul_eq_mul_div, div_le_iff hTQ]
    have hc : (col.countP (fun c => c ∈ grade_order.map Cell.str) : ℚ) ≤
        (nonNull col : ℚ) := by
      rw [hnn]
      exact_mod_cast hKle
    nlinarith
  · -- exactly 100 iff no stray non-null grades
    rw [div_mul_eq_mul_div, div_eq_iff (ne_of_gt hTQ)]
    constructor
    · intro he
      have hqe : (col.countP (fun c => c ∈ grade_order.map Cell.str) : ℚ) =
          (nonNull col : ℚ) := by linarith
      have hne : col.countP (fun c => c ∈ grade_order.map Cell.str) =
          col.countP (fun c => c ≠ Cell.na) := by
        have hq2 : (col.countP (fun c => c ∈ grade_order.map Cell.str) : ℚ) =
            (col.countP (fun c => c ≠ Cell.na) : ℚ) := by
          rw [← hnn]
          exact hqe
        exact_mod_cast hq2
      intro c hc hcna
      have := (countP_eq_iff_all col _ _ himp).1 hne c hc
        (by rw [decide_eq_true_eq]; exact hcna)
      rw [decide_eq_true_eq] at this
      rcases List.mem_map.1 this with ⟨g, hg, he'⟩
      exact ⟨g, hg, he'.symm⟩
    · intro hall
      have hne : col.countP (fun c => c ∈ grade_order.map Cell.str) =
          col.countP (fun c => c ≠ Cell.na) := by
        refine (countP_eq_iff_all col _ _ himp).2 ?_
        intro a ha hq
        rw [decide_eq_true_eq] at hq
        rw [decide_eq_true_eq]
        rcases hall a ha hq with ⟨g, hg, rfl⟩
        exact List.mem_map.2 ⟨g, hg, rfl⟩
      have hfin : (col.countP (fun c => c ∈ grade_order.map Cell.str) : ℚ) =
          (nonNull col : ℚ) := by
        rw [hnn]
        exact_mod_cast hne
      linarith

/-- Witness for C8 at a concrete all-bucket `Grade` column: keys are the
five buckets, some grade is non-null, and the percentages sum to 100. -/
theorem grade_distribution_buckets_witness :
    (grade_distribution_of [Cell.str "HD", Cell.str "HD", Cell.str "FL"]).map
        (fun t => t.1) = grade_order ∧
      (0 < nonNull [Cell.str "HD", Cell.str "HD", Cell.str "FL"] ∧
        ((grade_distribution_of [Cell.str "HD", Cell.str "HD", Cell.str "FL"]).map
          (fun t => t.2.2)).sum = 100) := by
  have h := grade_distribution_buckets exGradesFull
    [Cell.str "HD", Cell.str "HD", Cell.str "FL"]
    (grade_distribution_of [Cell.str "HD", Cell.str "HD", Cell.str "FL"])
    (by rfl) (by rfl)
  refine ⟨h.1, by decide, ?_⟩
  exact ((h.2 (by decide)).2).2 (by decide)

/-! ### C1, C5: the regex extractions -/

theorem isDigit_isUpper_false (c : Char) (h : c.isDigit = true) :
    c.isUpper = false := by
  unfold Char.isDigit at h
  unfold Char.isUpper
  rw [Bool.and_eq_true, decide_eq_true_eq, decide_eq_true_eq] at h
  rw [Bool.and_eq_false_iff]
  left
  rw [decide_eq_false_iff_not]
  intro hle
  have h1 : c.val.toNat ≤ 57 := h.2
  have h2 : 65 ≤ c.val.toNat := hle
  omega

theorem takeWhile_append_stop (p : Char → Bool) (l rest : List Char)
    (hl : ∀ c ∈ l, p c = true)
    (hrest : ∀ c, rest.head? = some c → p c = false) :
    (l ++ rest).takeWhile p = l := by
  induction l with
  | nil =>
    cases rest with
    | nil => rfl
    | cons r t =>
      simp only [List.nil_append, List.takeWhile_cons, hrest r rfl]
      simp
  | cons a l' ih =>
    rw [List.cons_append, List.takeWhile_cons,
      hl a (List.mem_cons_self a l')]
    rw [ih (fun c hc => hl c (List.mem_cons_of_mem a hc))]
    simp

theorem firstDigitRun_skip (c : Char) (l : List Char)
    (hc : c.isDigit = false) : firstDigitRun (c :: l) = firstDigitRun l := by
  simp only [firstDigitRun]
  rw [hc]
  simp

theorem firstDigitRun_append_skip (pre l : List Char)
    (hpre : ∀ c ∈ pre, c.isDigit = false) :
    firstDigitRun (pre ++ l) = firstDigitRun l := by
  induction pre with
  | nil => rfl
  | cons a t ih =>
    rw [List.cons_append,
      firstDigitRun_skip a _ (hpre a (List.mem_cons_self a t)),
      ih (fun c hc => hpre c (List.mem_cons_of_mem a hc))]

theorem firstDigitRun_of_starts (l rest : List Char)
    (hl : ∀ c ∈ l, c.isDigit = true) (hne : l ≠ [])
    (hrest : ∀ c, rest.head? = some c → c.isDigit = false) :
    firstDigitRun (l ++ rest) = some l := by
  cases l with
  | nil => exact absurd rfl hne
  | cons a t =>
    rw [List.cons_append]
    unfold firstDigitRun
    rw [if_pos (hl a (List.mem_cons_self a t)), ← List.cons_append,
      takeWhile_append_stop Char.isDigit (a :: t) rest hl hrest]

theorem firstDigitRun_none (l : List Char)
    (hl : ∀ c ∈ l, c.isDigit = false) : firstDigitRun l = none := by
  induction l with
  | nil => rfl
  | cons a t ih =>
    rw [firstDigitRun_skip a t (hl a (List.mem_cons_self a t))]
    exact ih (fun c hc => hl c (List.mem_cons_of_mem a hc))

theorem firstGradeRun_skip (c : Char) (l : List Char)
    (hc : c.isUpper = false) : firstGradeRun (c :: l) = firstGradeRun l := by
  cases l with
  | nil => rfl
  | cons d t =>
    have hg : gradeRunAt (c :: d :: t) = none := by
      simp only [gradeRunAt]
      rw [if_neg (fun hand => absurd hand.1 (by simp [hc]))]
    simp only [firstGradeRun, hg]

theorem firstGradeRun_append_skip (pre l : List Char)
    (hpre : ∀ c ∈ pre, c.isUpper = false) :
    firstGradeRun (pre ++ l) = firstGradeRun l := by
  induction pre with
  | nil => rfl
  | cons a t ih =>
    rw [List.cons_append,
      firstGradeRun_skip a _ (hpre a (List.mem_cons_self a t)),
      ih (fun c hc => hpre c (List.mem_cons_of_mem a hc))]

theorem firstGradeRun_at_start (g1 g2 : Char) (rest : List Char)
    (h1 : g1.isUpper = true) (h2 : g2.isUpper = true) :
    firstGradeRun (g1 :: g2 :: rest) =
      some (g1 :: g2 :: (rest.takeWhile Char.isUpper).take 1) := by
  have hg : gradeRunAt (g1 :: g2 :: rest) =
      some (g1 :: g2 :: (rest.takeWhile Char.isUpper).take 1) := by
    simp only [gradeRunAt]
    rw [if_pos ⟨h1, h2⟩]
  simp only [firstGradeRun, hg]

/-- Counterexample to C5 as stated: the extraction is a search, not an
anchored match — on the cell `"X78"`, whose text does not begin with a
digit, `Final_Mark` is 78.0 rather than null. -/
theorem final_mark_prefix_counterexample :
    process_dataframe exLetterMark = Except.ok (processedFrame exLetterMark) ∧
    (processedFrame exLetterMark).getCol "Final_Mark" = some [Cell.num 78] ∧
    ("X78".toList.head?.map Char.isDigit) = some false :=
  ⟨rfl, by decide, rfl⟩

/-- C5 (amended): `Final_Mark` is the extraction `markCell` applied to each
column-D cell, and for every cell text the extracted number is the numeric
value of the first maximal run of digits anywhere in the text (not only a
prefix), null exactly when the text contains no digit. -/
theorem final_mark_first_digit_run (df out : Frame)
    (h : process_dataframe df = Except.ok out) :
    out.getCol "Final_Mark" = some (((preprocessed df).icol 3).map markCell) ∧
    (∀ s : String,
      ((∀ ch ∈ s.toList, ch.isDigit = false) → extractDigits s = none) ∧
      (∀ pre run post, s.toList = pre ++ run ++ post →
        (∀ ch ∈ pre, ch.isDigit = false) → run ≠ [] →
        (∀ ch ∈ run, ch.isDigit = true) →
        (∀ ch, post.head? = some ch → ch.isDigit = false) →
        extractDigits s = some (digitsToNat run))) := by
  refine ⟨getCol_FinalMark_of_ok h, fun s => ⟨?_, ?_⟩⟩
  · intro hnd
    unfold extractDigits
    rw [firstDigitRun_none s.toList hnd]
    rfl
  · intro pre run post heq hpre hne hrun hpost
    unfold extractDigits
    rw [heq, List.append_assoc,
      firstDigitRun_append_skip pre (run ++ post) hpre,
      firstDigitRun_of_starts run post hrun hne hpost]
    rfl

/-- Witness for C5 (amended): on `"X78"` the extraction returns the value
of the digit run `78` sitting after the letter. -/
theorem final_mark_first_digit_run_witness :
    extractDigits "X78" = some (digitsToNat ['7', '8']) ∧
      digitsToNat ['7', '8'] = 78 :=
  ⟨((final_mark_first_digit_run exLetterMark (processedFrame exLetterMark)
      (by rfl)).2 "X78").2 ['X'] ['7', '8'] [] (by decide) (by decide)
      (by decide) (by decide) (fun ch hch => by cases hch), by decide⟩

/-- C1: a column-D cell whose text is a digit run, a space, and a two- or
three-letter uppercase grade token — such as `"78 DN"` — is split by
`process_dataframe` into `Final_Mark` = the numeric score and `Grade` = the
letter token. -/
theorem mark_grade_split (df out : Frame) (i : Nat) (s : String)
    (digits gtok : List Char)
    (h : process_dataframe df = Except.ok out)
    (hcell : ((preprocessed df).icol 3)[i]? = some (Cell.str s))
    (hs : s.toList = digits ++ ' ' :: gtok)
    (hd : digits ≠ []) (hdall : ∀ c ∈ digits, c.isDigit = true)
    (hgall : ∀ c ∈ gtok, c.isUpper = true)
    (hglen : gtok.length = 2 ∨ gtok.length = 3) :
    (∃ fmcol, out.getCol "Final_Mark" = some fmcol ∧
      fmcol[i]? = some (Cell.num (digitsToNat digits))) ∧
    (∃ gcol, out.getCol "Grade" = some gcol ∧
      gcol[i]? = some (Cell.str (String.mk gtok))) := by
  have hmark : markCell (Cell.str s) = Cell.num (digitsToNat digits) := by
    unfold markCell extractDigits cellToStr
    rw [hs, show digits ++ ' ' :: gtok = digits ++ (' ' :: gtok) from rfl,
      firstDigitRun_of_starts digits (' ' :: gtok) hdall hd
        (fun c hc => by cases hc; rfl)]
    rfl
  have hnup : ∀ c ∈ digits ++ [' '], c.isUpper = false := by
    intro c hc
    rcases List.mem_append.1 hc with hcd | hcs
    · exact isDigit_isUpper_false c (hdall c hcd)
    · rw [List.mem_singleton.1 hcs]
      rfl
  have hgr : firstGradeRun (digits ++ ' ' :: gtok) = some gtok := by
    have happ : digits ++ ' ' :: gtok = (digits ++ [' ']) ++ gtok := by
      simp
    rw [happ, firstGradeRun_append_skip (digits ++ [' ']) gtok hnup]
    rcases hglen with h2 | h3
    · rcases List.length_eq_two.1 h2 with ⟨a, b, rfl⟩
      rw [firstGradeRun_at_start a b []
        (hgall a (by simp)) (hgall b (by simp))]
      rfl
    · rcases List.length_eq_three.1 h3 with ⟨a, b, c, rfl⟩
      rw [firstGradeRun_at_start a b [c]
        (hgall a (by simp)) (hgall b (by simp))]
      rw [List.takeWhile_cons, hgall c (by simp)]
      rfl
  have hgrade : gradeCell (Cell.str s) = Cell.str (String.mk gtok) := by
    unfold gradeCell extractGrade cellToStr
    rw [hs, hgr]
    rfl
  constructor
  · refine ⟨((preprocessed df).icol 3).map markCell,
      getCol_FinalMark_of_ok h, ?_⟩
    rw [List.getElem?_map, hcell]
    simp only [Option.map_some']
    rw [hmark]
  · refine ⟨((preprocessed df).icol 3).map gradeCell,
      getCol_Grade_of_ok h, ?_⟩
    rw [List.getElem?_map, hcell]
    simp only [Option.map_some']
    rw [hgrade]

/-- Witness for C1: the concrete cell `"78 DN"` of `exMark` yields
`Final_Mark = 78.0` and `Grade = "DN"`. -/
theorem mark_grade_split_witness :
    (∃ fmcol, (processedFrame exMark).getCol "Final_Mark" = some fmcol ∧
      fmcol[0]? = some (Cell.num (digitsToNat ['7', '8']))) ∧
    (∃ gcol, (processedFrame exMark).getCol "Grade" = some gcol ∧
      gcol[0]? = some (Cell.str (String.mk ['D', 'N']))) :=
  mark_grade_split exMark (processedFrame exMark) 0 "78 DN" ['7', '8']
    ['D', 'N'] (by rfl) (by decide) (by decide) (by decide) (by decide)
    (by decide) (Or.inl (by decide))

/-! ### C3: common students -/

theorem studentIDList_spec (df d : Frame)
    (h : process_dataframe df = Except.ok d)
    (hFM : "Final_Mark" ∉ (preprocessed df).colNames)
    (hG : "Grade" ∉ (preprocessed df).colNames) :
    studentIDList d = specStudentIDs df := by
  unfold studentIDList specStudentIDs
  rw [getCol_StudentID_of_ok' h hFM hG]
  rw [Option.getD_some, List.map_map]
  rfl

/-- C3: the common students — and the `Students in BOTH` count — are the
set intersection of the two tables' Student-ID sets, where a table's
Student ID is its first column's value coerced to a string and stripped of
surrounding whitespace. -/
theorem common_ids_spec (f1 f2 d1 d2 : Frame)
    (h1 : process_dataframe f1 = Except.ok d1)
    (h2 : process_dataframe f2 = Except.ok d2)
    (hFM1 : "Final_Mark" ∉ (preprocessed f1).colNames)
    (hG1 : "Grade" ∉ (preprocessed f1).colNames)
    (hFM2 : "Final_Mark" ∉ (preprocessed f2).colNames)
    (hG2 : "Grade" ∉ (preprocessed f2).colNames) :
    common_ids d1 d2 =
      (specStudentIDs f1).toFinset ∩ (specStudentIDs f2).toFinset ∧
    (common_ids d1 d2).card =
      ((specStudentIDs f1).toFinset ∩ (specStudentIDs f2).toFinset).card := by
  have e1 := studentIDList_spec f1 d1 h1 hFM1 hG1
  have e2 := studentIDList_spec f2 d2 h2 hFM2 hG2
  unfold common_ids
  rw [e1, e2]
  exact ⟨rfl, rfl⟩

/-- Witness for C3 on the concrete pair `exLeft`, `exRight`, which share
student `2`. -/
theorem common_ids_spec_witness :
    common_ids (processedFrame exLeft) (processedFrame exRight) =
      (specStudentIDs exLeft).toFinset ∩ (specStudentIDs exRight).toFinset :=
  (common_ids_spec exLeft exRight (processedFrame exLeft)
    (processedFrame exRight) (by rfl) (by rfl) (by decide) (by decide)
    (by decide) (by decide)).1

/-! ### C4: the detailed comparison table -/

theorem diffGE_total (a b : CompRow) :
    diffGE a b = true ∨ diffGE b a = true := by
  unfold diffGE
  cases ha : a.diff <;> cases hb : b.diff <;> simp
  exact (le_total _ _).symm

theorem diffGE_trans (a b c : CompRow) (h1 : diffGE a b = true)
    (h2 : diffGE b c = true) : diffGE a c = true := by
  unfold diffGE at h1 h2 ⊢
  cases ha : a.diff <;> cases hb : b.diff <;> cases hc : c.diff <;>
    rw [ha, hb] at h1 <;> rw [hb, hc] at h2 <;> simp_all
  exact le_trans h2 h1

theorem insertDesc_perm (r : CompRow) (l : List CompRow) :
    (insertDesc r l).Perm (r :: l) := by
  induction l with
  | nil => exact List.Perm.refl _
  | cons x xs ih =>
    unfold insertDesc
    by_cases hrx : diffGE r x = true
    · rw [if_pos hrx]
    · rw [if_neg hrx]
      exact (List.Perm.cons x ih).trans (List.Perm.swap r x xs)

theorem sortRowsDesc_perm (l : List CompRow) : (sortRowsDesc l).Perm l := by
  induction l with
  | nil => exact List.Perm.refl _
  | cons x xs ih =>
    exact (insertDesc_perm x (sortRowsDesc xs)).trans (List.Perm.cons x ih)

theorem insertDesc_pairwise (r : CompRow) (l : List CompRow)
    (hp : l.Pairwise (fun a b => diffGE a b = true)) :
    (insertDesc r l).Pairwise (fun a b => diffGE a b = true) := by
  induction l with
  | nil =>
    exact List.Pairwise.cons (fun b hb => absurd hb (List.not_mem_nil b))
      List.Pairwise.nil
  | cons x xs ih =>
    rw [List.pairwise_cons] at hp
    unfold insertDesc
    by_cases hrx : diffGE r x = true
    · rw [if_pos hrx]
      rw [List.pairwise_cons]
      constructor
      · intro y hy
        rcases List.mem_cons.1 hy with rfl | hys
        · exact hrx
        · exact diffGE_trans r x y hrx (hp.1 y hys)
      · rw [List.pairwise_cons]
        exact hp
    · rw [if_neg hrx]
      rw [List.pairwise_cons]
      constructor
      · intro y hy
        rw [(insertDesc_perm r xs).mem_iff] at hy
        rcases List.mem_cons.1 hy with rfl | hys
        · exact (diffGE_total y x).resolve_left hrx
        · exact hp.1 y hys
      · exact ih hp.2

theorem sortRowsDesc_pairwise (l : List CompRow) :
    (sortRowsDesc l).Pairwise (fun a b => diffGE a b = true) := by
  induction l with
  | nil => exact List.Pairwise.nil
  | cons x xs ih => exact insertDesc_pairwise x (sortRowsDesc xs) ih

theorem filter_eq_singleton_of_nodup (l : List (String × Cell)) (s : String)
    (w : Cell) (hnd : (l.map Prod.fst).Nodup) (hm : (s, w) ∈ l) :
    l.filter (fun q => q.1 = s) = [(s, w)] := by
  induction l with
  | nil => cases hm
  | cons a t ih =>
    rw [List.map_cons, List.nodup_cons] at hnd
    rcases List.mem_cons.1 hm with rfl | hmt
    · rw [List.filter_cons_of_pos (by simp)]
      have hnone : t.filter (fun q => q.1 = s) = [] := by
        rw [List.filter_eq_nil]
        intro q hq
        simp only [decide_eq_true_eq]
        intro he
        refine hnd.1 ?_
        rw [← he]
        exact List.mem_map.2 ⟨q, hq, rfl⟩
      rw [hnone]
    · have hane : ¬(a.1 = s) := by
        intro he
        exact hnd.1 (he ▸ (List.mem_map_of_mem Prod.fst hmt : (s, w).1 ∈ _))
      rw [List.filter_cons_of_neg (by simpa using hane)]
      exact ih hnd.2 hmt

theorem find?_of_nodup_keys (l : List (String × Cell)) (s : String) (v : Cell)
    (hnd : (l.map Prod.fst).Nodup) (hm : (s, v) ∈ l) :
    l.find? (fun q => q.1 = s) = some (s, v) := by
  induction l with
  | nil => cases hm
  | cons a t ih =>
    rw [List.map_cons, List.nodup_cons] at hnd
    rcases List.mem_cons.1 hm with rfl | hmt
    · rw [List.find?_cons_of_pos _ (by simp)]
    · have hane : ¬(a.1 = s) := by
        intro he
        exact hnd.1 (he ▸ (List.mem_map_of_mem Prod.fst hmt : (s, v).1 ∈ _))
      rw [List.find?_cons_of_neg _ (by simpa using hane)]
      exact ih hnd.2 hmt

theorem mergeOn_map_fst (l r : List (String × Cell))
    (hr : ∀ s ∈ l.map Prod.fst,
      ∃ w, r.filter (fun q => q.1 = s) = [(s, w)]) :
    (mergeOn l r).map (fun t => t.1) = l.map Prod.fst := by
  induction l with
  | nil => rfl
  | cons p t ih =>
    obtain ⟨w, hw⟩ := hr p.1 (List.mem_map_of_mem Prod.fst (List.mem_cons_self p t))
    unfold mergeOn
    rw [List.flatMap_cons, List.map_append, hw]
    have ihr := ih (fun s hs => hr s (by rw [List.map_cons]; exact List.mem_cons_of_mem _ hs))
    unfold mergeOn at ihr
    rw [ihr]
    rfl

theorem mergeOn_mem (l r : List (String × Cell)) (t : String × Cell × Cell)
    (ht : t ∈ mergeOn l r) : (t.1, t.2.1) ∈ l ∧ (t.1, t.2.2) ∈ r := by
  unfold mergeOn at ht
  rcases List.mem_flatMap.1 ht with ⟨p, hp, hmap⟩
  rcases List.mem_map.1 hmap with ⟨q, hq, rfl⟩
  rw [List.mem_filter] at hq
  have hq1 : q.1 = p.1 := by simpa using hq.2
  constructor
  · exact hp
  · simpa [← hq1] using hq.1

/-- C4: on identifier-keyed tables, the detailed comparison table is the
inner join of the two tables on `Student ID` restricted to the common
students — one row per shared identifier — its `Difference` column is the
File 2 value minus the File 1 value of that student, and its rows are
ordered by `Difference` descending. -/
theorem comparison_df_correct (d1 d2 : Frame) (c1 c2 : String)
    (hnd1 : (studentIDList d1).Nodup) (hnd2 : (studentIDList d2).Nodup)
    (hlen1 : (studentIDList d1).length ≤ ((d1.getCol c1).getD []).length)
    (hlen2 : (studentIDList d2).length ≤ ((d2.getCol c2).getD []).length)
    (hv1 : ∀ p ∈ idValuePairs d1 c1, (p.2).isNum = true)
    (hv2 : ∀ p ∈ idValuePairs d2 c2, (p.2).isNum = true) :
    ((comparison_df d1 d2 c1 c2).map CompRow.sid).Nodup ∧
    (∀ s, s ∈ (comparison_df d1 d2 c1 c2).map CompRow.sid ↔
      s ∈ common_ids d1 d2) ∧
    (∀ r ∈ comparison_df d1 d2 c1 c2, ∃ x y : ℚ,
      lookupVal d1 c1 r.sid = some (Cell.num x) ∧
      lookupVal d2 c2 r.sid = some (Cell.num y) ∧
      r.v1 = Cell.num x ∧ r.v2 = Cell.num y ∧ r.diff = Cell.num (y - x)) ∧
    (comparison_df d1 d2 c1 c2).Pairwise
      (fun a b => ∀ x y : ℚ,
        a.diff = Cell.num x → b.diff = Cell.num y → y ≤ x) := by
  have hkeys1 : (idValuePairs d1 c1).map Prod.fst = studentIDList d1 :=
    List.map_fst_zip _ _ hlen1
  have hkeys2 : (idValuePairs d2 c2).map Prod.fst = studentIDList d2 :=
    List.map_fst_zip _ _ hlen2
  have hcomp : comparison_df d1 d2 c1 c2 =
      sortRowsDesc (((mergeOn
        ((idValuePairs d1 c1).filter (fun p => p.1 ∈ common_ids d1 d2))
        ((idValuePairs d2 c2).filter (fun p => p.1 ∈ common_ids d1 d2)))).map
          (fun t => ⟨t.1, t.2.1, t.2.2, cellSub t.2.2 t.2.1⟩)) := rfl
  -- key lists of the two restricted tables
  have hnf1 : (((idValuePairs d1 c1).filter
      (fun p => p.1 ∈ common_ids d1 d2)).map Prod.fst).Nodup := by
    refine List.Nodup.sublist (List.Sublist.map Prod.fst
      (List.filter_sublist (idValuePairs d1 c1))) ?_
    rw [hkeys1]
    exact hnd1
  have hnf2 : (((idValuePairs d2 c2).filter
      (fun p => p.1 ∈ common_ids d1 d2)).map Prod.fst).Nodup := by
    refine List.Nodup.sublist (List.Sublist.map Prod.fst
      (List.filter_sublist (idValuePairs d2 c2))) ?_
    rw [hkeys2]
    exact hnd2
  -- each common id matches exactly one row of the restricted File 2 table
  have huniq : ∀ s ∈ ((idValuePairs d1 c1).filter
      (fun p => p.1 ∈ common_ids d1 d2)).map Prod.fst,
      ∃ w, ((idValuePairs d2 c2).filter
        (fun p => p.1 ∈ common_ids d1 d2)).filter (fun q => q.1 = s) =
          [(s, w)] := by
    intro s hs
    rcases List.mem_map.1 hs with ⟨p, hpf, rfl⟩
    rw [List.mem_filter] at hpf
    have hcom : p.1 ∈ common_ids d1 d2 := by simpa using hpf.2
    have hid2 : p.1 ∈ studentIDList d2 := by
      unfold common_ids at hcom
      rw [Finset.mem_inter, List.mem_toFinset, List.mem_toFinset] at hcom
      exact hcom.2
    rw [← hkeys2] at hid2
    rcases List.mem_map.1 hid2 with ⟨q, hq2, hq1⟩
    refine ⟨q.2, ?_⟩
    have hqe : (p.1, q.2) = q := by
      rw [← hq1]
    have hqf2 : (p.1, q.2) ∈ (idValuePairs d2 c2).filter
        (fun p => p.1 ∈ common_ids d1 d2) := by
      rw [List.mem_filter]
      refine ⟨by rw [hqe]; exact hq2, by simpa using hcom⟩
    exact filter_eq_singleton_of_nodup _ p.1 q.2 hnf2 hqf2
  have hmk : ((mergeOn
      ((idValuePairs d1 c1).filter (fun p => p.1 ∈ common_ids d1 d2))
      ((idValuePairs d2 c2).filter (fun p => p.1 ∈ common_ids d1 d2))).map
        (fun t => t.1)) =
      ((idValuePairs d1 c1).filter
        (fun p => p.1 ∈ common_ids d1 d2)).map Prod.fst :=
    mergeOn_map_fst _ _ huniq
  -- the sid column of the table is a permutation of the restricted keys
  have hsidperm : ((comparison_df d1 d2 c1 c2).map CompRow.sid).Perm
      (((idValuePairs d1 c1).filter
        (fun p => p.1 ∈ common_ids d1 d2)).map Prod.fst) := by
    rw [hcomp]
    rw [← hmk]
    refine ((sortRowsDesc_perm _).map CompRow.sid).trans ?_
    rw [List.map_map]
    exact List.Perm.of_eq (List.map_congr_left (fun t ht => rfl))
  refine ⟨?_, ?_, ?_, ?_⟩
  · -- no duplicate identifiers
    exact hsidperm.nodup_iff.2 hnf1
  · -- exactly the common students
    intro s
    rw [hsidperm.mem_iff]
    constructor
    · intro hs
      rcases List.mem_map.1 hs with ⟨p, hpf, rfl⟩
      rw [List.mem_filter] at hpf
      simpa using hpf.2
    · intro hs
      have hid1 : s ∈ studentIDList d1 := by
        have hc := hs
        unfold common_ids at hc
        rw [Finset.mem_inter, List.mem_toFinset, List.mem_toFinset] at hc
        exact hc.1
      rw [← hkeys1] at hid1
      rcases List.mem_map.1 hid1 with ⟨p, hp1, rfl⟩
      refine List.mem_map.2 ⟨p, ?_, rfl⟩
      rw [List.mem_filter]
      exact ⟨hp1, by simpa using hs⟩
  · -- the Difference column
    intro r hr
    rw [hcomp] at hr
    have hr' := (sortRowsDesc_perm _).mem_iff.1 hr
    rcases List.mem_map.1 hr' with ⟨t, htm, rfl⟩
    obtain ⟨ht1, ht2⟩ := mergeOn_mem _ _ t htm
    rw [List.mem_filter] at ht1 ht2
    have hx0 := hv1 _ ht1.1
    have hy0 := hv2 _ ht2.1
    have hx1 : (t.2.1).isNum = true := hx0
    have hy1 : (t.2.2).isNum = true := hy0
    rcases hxc : t.2.1 with s1 | x | u <;> rw [hxc] at hx1 <;>
      simp [Cell.isNum] at hx1
    rcases hyc : t.2.2 with s2 | y | u <;> rw [hyc] at hy1 <;>
      simp [Cell.isNum] at hy1
    rw [hxc] at ht1
    rw [hyc] at ht2
    refine ⟨x, y, ?_, ?_, rfl, rfl, ?_⟩
    · show lookupVal d1 c1 t.1 = some (Cell.num x)
      unfold lookupVal
      rw [find?_of_nodup_keys (idValuePairs d1 c1) t.1 (Cell.num x)
        (by rw [hkeys1]; exact hnd1) ht1.1]
      rfl
    · show lookupVal d2 c2 t.1 = some (Cell.num y)
      unfold lookupVal
      rw [find?_of_nodup_keys (idValuePairs d2 c2) t.1 (Cell.num y)
        (by rw [hkeys2]; exact hnd2) ht2.1]
      rfl
    · show cellSub (Cell.num y) (Cell.num x) = Cell.num (y - x)
      rfl
  · -- sorted by Difference descending
    rw [hcomp]
    refine (sortRowsDesc_pairwise _).imp ?_
    intro a b hab x y hax hby
    unfold diffGE at hab
    rw [hax, hby] at hab
    exact of_decide_eq_true hab

/-- Witness for C4 on the concrete pair `exProc1`, `exProc2` (both students
shared): the comparison table's identifiers are exactly the common ones,
without duplicates. -/
theorem comparison_df_correct_witness :
    ((comparison_df exProc1 exProc2 "Final_Mark" "Final_Mark").map
        CompRow.sid).Nodup ∧
    ∀ s, s ∈ (comparison_df exProc1 exProc2 "Final_Mark" "Final_Mark").map
        CompRow.sid ↔ s ∈ common_ids exProc1 exProc2 := by
  have h := comparison_df_correct exProc1 exProc2 "Final_Mark" "Final_Mark"
    (by decide) (by decide) (by decide) (by decide) (by decide) (by decide)
  exact ⟨h.1, h.2.1⟩
